import Mathlib

/-!
Verification of the Peridot slotted record store (cmd/peridot/main.go).

Files are modelled as lists of byte values (`List Nat`, each element < 256
in well-formed states).  `ReadAt` fails exactly when fewer than the requested
number of bytes are available, matching Go's `os.File.ReadAt`; `WriteAt`
extends the file with zero bytes when writing past end-of-file, matching
flat random-access file semantics.
-/

namespace Peridot

/-- nodeSize from main.go: `const nodeSize = 72` (4 ID + 1 InUse + 3 padding + 64 Value). -/
def nodeSize : Nat := 72

/-- The empty-free-list sentinel `^uint32(0)` (all bits set). -/
def sentinel : Nat := 2 ^ 32 - 1

/-- Little-endian 4-byte encoding of a `uint32` value, as
`binary.LittleEndian.PutUint32` produces (the value is reduced mod 2^32
bytewise, matching Go's fixed-width integer). -/
def le32 (n : Nat) : List Nat :=
  [n % 256, n / 256 % 256, n / 65536 % 256, n / 16777216 % 256]

/-- `binary.LittleEndian.Uint32`: decode the first four bytes as little-endian. -/
def fromLE32 (bs : List Nat) : Nat :=
  bs.getD 0 0 + 256 * bs.getD 1 0 + 65536 * bs.getD 2 0 + 16777216 * bs.getD 3 0

/-- Pad a file with zero bytes up to length `n` (no-op when already long enough). -/
def padTo (f : List Nat) (n : Nat) : List Nat :=
  f ++ List.replicate (n - f.length) 0

/-- `WriteAt`: overwrite `d.length` bytes at offset `off`, zero-extending the
file first when `off` lies past end-of-file. -/
def writeAt (f : List Nat) (off : Nat) (d : List Nat) : List Nat :=
  (padTo f off).take off ++ d ++ f.drop (off + d.length)

/-- `ReadAt`: read exactly `n` bytes at offset `off`; `none` when fewer than
`n` bytes are available (Go returns `io.EOF` on a short read). -/
def readAt (f : List Nat) (off n : Nat) : Option (List Nat) :=
  if off + n ≤ f.length then some ((f.drop off).take n) else none

/-- The fixed 64-byte `Value` field: `var fixed [64]byte; copy(fixed[:], v)`
truncates to 64 bytes and zero-pads shorter input. -/
def fix64 (v : List Nat) : List Nat :=
  v.take 64 ++ List.replicate (64 - v.length) 0

/-- Slot serialisation from `writeNode` / `deleteNode`:
`buf := make([]byte, nodeSize)` (all zero), then
`PutUint32(buf[0:], id)`, `buf[4] = inUse`, `copy(buf[8:], value)`.
Bytes 5, 6, 7 stay zero; the 64-byte value starts at offset 8.
Intended for `w.length = 64`. -/
def encodeNode (id inUse : Nat) (w : List Nat) : List Nat :=
  le32 id ++ [inUse] ++ [0, 0, 0] ++ w

/-- In-memory record, mirroring the fields of `internal.Node` that the store
reads and writes (`ID`, `InUse`, `Value`). -/
structure Node where
  id : Nat
  inUse : Nat
  value : List Nat
deriving DecidableEq, Repr

/-- Slot deserialisation from `readNode` / `readStore`:
`ID = Uint32(buf[0:4])`, `InUse = buf[4]`, `copy(Value[:], buf[8:72])`. -/
def decodeNode (buf : List Nat) : Node :=
  ⟨fromLE32 (buf.take 4), buf.getD 4 0, (buf.drop 8).take 64⟩

/-- readNode from main.go: read `nodeSize` bytes at `id * nodeSize` and decode. -/
def readNode (f : List Nat) (id : Nat) : Option Node :=
  (readAt f (id * nodeSize) nodeSize).map decodeNode

/-- getFree from main.go: read 4 bytes at offset 0 of the free file; on any
read failure return the sentinel `^uint32(0)` (the Go function returns a nil
error in both branches, so it never fails). -/
def getFree (f : List Nat) : Nat :=
  match readAt f 0 4 with
  | none => sentinel
  | some buf => fromLE32 buf

/-- setFree from main.go: write the 4 little-endian bytes of `id` at offset 0. -/
def setFree (f : List Nat) (id : Nat) : List Nat :=
  writeAt f 0 (le32 id)

/-- A store: the byte contents of `<name>.db` (nodeFile) and
`<name>_free.db` (freeFile). -/
structure Store where
  nodeFile : List Nat
  freeFile : List Nat
deriving DecidableEq, Repr

/-- writeNode from main.go, taking the already-marshalled value bytes
(`jsonVal := json.Marshal(value)` happens in the caller's string domain and
only its output bytes reach the fixed field).  Reuse path: pop the free-list
head, read the popped slot's link from bytes [8:12], store it as the new
head, overwrite the slot.  Append path: `offset = file size`,
`ID = uint32(offset / nodeSize)` (truncating division, then mod 2^32).
`none` models a returned error (the only failing step is the slot read). -/
def writeNode (s : Store) (jsonVal : List Nat) : Option Store :=
  let freeID := getFree s.freeFile
  let fixed := fix64 jsonVal
  if freeID ≠ sentinel then
    match readAt s.nodeFile (freeID * nodeSize) nodeSize with
    | none => none
    | some buf =>
      let nextFreeID := fromLE32 ((buf.drop 8).take 4)
      some ⟨writeAt s.nodeFile (freeID * nodeSize) (encodeNode freeID 1 fixed),
            setFree s.freeFile nextFreeID⟩
  else
    some ⟨writeAt s.nodeFile s.nodeFile.length
            (encodeNode (s.nodeFile.length / nodeSize % 2 ^ 32) 1 fixed),
          s.freeFile⟩

/-- deleteNode from main.go: unconditionally overwrite the slot at
`id * nodeSize` with a free marker whose value field starts with the previous
head, then set the head to `id`.  In the model neither write can fail, so the
function is total (the Go version only propagates write errors). -/
def deleteNode (s : Store) (id : Nat) : Store :=
  let currentHead := getFree s.freeFile
  ⟨writeAt s.nodeFile (id * nodeSize) (encodeNode id 0 (fix64 (le32 currentHead))),
   setFree s.freeFile id⟩

/-- The ID that the next `writeNode` will assign, mirroring its branch on the
free-list head (reuse the head when it is not the sentinel, else append). -/
def allocTarget (s : Store) : Nat :=
  let freeID := getFree s.freeFile
  if freeID ≠ sentinel then freeID else s.nodeFile.length / nodeSize % 2 ^ 32

/-- readStore from main.go: the loop reads slot `i` for `i = 0, 1, ...` and
stops at the first failed read.  The read of slot `i` succeeds exactly when
`(i+1) * nodeSize ≤ f.length`, i.e. when `i < f.length / nodeSize`, so the
loop returns exactly the decodings of slots `0 .. f.length / nodeSize - 1`
(and a nil error in every case). -/
def readStore (f : List Nat) : List Node :=
  (List.range (f.length / nodeSize)).filterMap (fun i => readNode f i)

/-- comReadAll's filter: keep the records with `InUse == 1`. -/
def readAllInUse (f : List Nat) : List Node :=
  (readStore f).filter (fun n => n.inUse == 1)

/-- Node-file name used by `openStore`: `name + ".db"`. -/
def openNodeFileName (name : String) : String := name ++ ".db"

/-- Free-file name used by `openStore`: `name + "_free.db"`. -/
def openFreeFileName (name : String) : String := name ++ "_free.db"

/-- Node-file name used by `createStore`: `name + ".db"`. -/
def createNodeFileName (name : String) : String := name ++ ".db"

/-- Free-file name used by `createStore`: `name + "_free.db"`. -/
def createFreeFileName (name : String) : String := name ++ "_free.db"

/-- Node-file name opened by `comClose`: the bare `storename`, with no
`".db"` suffix appended. -/
def closeNodeFileName (name : String) : String := name

/-- Free-file name opened by `comClose`: `storename + "_free"`, with no
`".db"` suffix appended. -/
def closeFreeFileName (name : String) : String := name ++ "_free"

/-- Modelled from the spec (refinement target for the layout claim): the slot
layout the spec describes, with only two padding bytes between `in_use` and
the payload, so that the payload would begin at offset 7. -/
def encodeNodeSpec (id inUse : Nat) (w : List Nat) : List Nat :=
  le32 id ++ [inUse] ++ [0, 0] ++ w

/-- Concrete test store: eight occupied slots, empty free file. -/
def cs8 : Store :=
  ⟨(List.range 8).flatMap (fun i => encodeNode i 1 (fix64 [])), []⟩

/-- Concrete test store whose node file's size (73) is not a multiple of `nodeSize`. -/
def s73 : Store := ⟨List.replicate 73 0, []⟩

/-- Concrete test store: ten zero-filled slots, empty free file. -/
def s720 : Store := ⟨List.replicate 720 0, []⟩

/-- Concrete test store: two zero-filled slots, empty free file. -/
def s144 : Store := ⟨List.replicate 144 0, []⟩

/-- Concrete test store: one free slot whose embedded link is the sentinel,
with free-list head 0. -/
def csFree : Store := ⟨encodeNode 0 0 (fix64 (le32 sentinel)), [0, 0, 0, 0]⟩

/-- Example store name for the file-naming theorems. -/
def gName : String := "g"

theorem length_padTo (f : List Nat) (n : Nat) : (padTo f n).length = max f.length n := by
  simp [padTo]; omega

theorem length_take_padTo (f : List Nat) (off : Nat) :
    ((padTo f off).take off).length = off := by
  rw [List.length_take, length_padTo]; omega

theorem length_writeAt (f : List Nat) (off : Nat) (d : List Nat) :
    (writeAt f off d).length = max f.length (off + d.length) := by
  simp [writeAt, length_padTo]; omega

theorem getElem?_padTo (f : List Nat) (n j : Nat) :
    (padTo f n)[j]? = if j < f.length then f[j]? else if j < n then some 0 else none := by
  rw [padTo, List.getElem?_append]
  by_cases h1 : j < f.length
  · rw [if_pos h1, if_pos h1]
  · rw [if_neg h1, if_neg h1, List.getElem?_replicate]
    by_cases h2 : j < n
    · rw [if_pos (by omega : j - f.length < n - f.length), if_pos h2]
    · rw [if_neg (by omega : ¬ j - f.length < n - f.length), if_neg h2]

theorem getElem?_writeAt (f : List Nat) (off : Nat) (d : List Nat) (j : Nat) :
    (writeAt f off d)[j]? =
      if j < off then (padTo f off)[j]?
      else if j < off + d.length then d[j - off]?
      else f[j]? := by
  have hA : ((padTo f off).take off).length = off := length_take_padTo f off
  rw [writeAt]
  simp only [List.getElem?_append, List.length_append, hA, List.getElem?_take,
    List.getElem?_drop]
  by_cases h1 : j < off
  · have h2 : j < off + d.length := by omega
    simp [h1, h2]
  · by_cases h2 : j < off + d.length
    · simp [h1, h2]
    · simp [h1, h2, show off + d.length + (j - (off + d.length)) = j from by omega]

theorem getElem?_slice (f : List Nat) (off n i : Nat) :
    ((f.drop off).take n)[i]? = if i < n then f[off + i]? else none := by
  rw [List.getElem?_take, List.getElem?_drop]

theorem readAt_writeAt_self (f : List Nat) (off : Nat) (d : List Nat) :
    readAt (writeAt f off d) off d.length = some d := by
  have hlen : off + d.length ≤ (writeAt f off d).length := by
    rw [length_writeAt]; omega
  rw [readAt, if_pos hlen]
  congr 1
  apply List.ext_getElem?
  intro i
  rw [getElem?_slice, getElem?_writeAt]
  by_cases hi : i < d.length
  · rw [if_pos hi, if_neg (by omega : ¬ off + i < off),
        if_pos (by omega : off + i < off + d.length),
        show off + i - off = i from by omega]
  · rw [if_neg hi]
    exact (List.getElem?_eq_none (by omega)).symm

theorem readAt_writeAt_left {off1 n off2 : Nat} (f d : List Nat)
    (h1 : off1 + n ≤ off2) (h2 : off1 + n ≤ f.length) :
    readAt (writeAt f off2 d) off1 n = readAt f off1 n := by
  have hw : off1 + n ≤ (writeAt f off2 d).length := by
    rw [length_writeAt]; omega
  rw [readAt, readAt, if_pos hw, if_pos h2]
  congr 1
  apply List.ext_getElem?
  intro i
  rw [getElem?_slice, getElem?_slice]
  by_cases hi : i < n
  · rw [if_pos hi, if_pos hi, getElem?_writeAt,
        if_pos (by omega : off1 + i < off2), getElem?_padTo,
        if_pos (by omega : off1 + i < f.length)]
  · rw [if_neg hi, if_neg hi]

theorem readAt_writeAt_right {off1 off2 : Nat} (f d : List Nat) (n : Nat)
    (h1 : off2 + d.length ≤ off1) (h2 : off2 + d.length ≤ f.length) :
    readAt (writeAt f off2 d) off1 n = readAt f off1 n := by
  have hlen : (writeAt f off2 d).length = f.length := by
    rw [length_writeAt]; omega
  rw [readAt, readAt, hlen]
  by_cases hc : off1 + n ≤ f.length
  · rw [if_pos hc, if_pos hc]
    congr 1
    apply List.ext_getElem?
    intro i
    rw [getElem?_slice, getElem?_slice]
    by_cases hi : i < n
    · rw [if_pos hi, if_pos hi, getElem?_writeAt,
          if_neg (by omega : ¬ off1 + i < off2),
          if_neg (by omega : ¬ off1 + i < off2 + d.length)]
    · rw [if_neg hi, if_neg hi]
  · rw [if_neg hc, if_neg hc]

theorem fromLE32_le32 (n : Nat) : fromLE32 (le32 n) = n % 2 ^ 32 := by
  have h1 : n % 2 ^ 32 = n % 256 + 256 * (n / 256 % 16777216) := by
    rw [show (2 ^ 32 : Nat) = 256 * 16777216 by norm_num]
    exact Nat.mod_mul
  have h2 : n / 256 % 16777216 = n / 256 % 256 + 256 * (n / 65536 % 65536) := by
    rw [show (16777216 : Nat) = 256 * 65536 by norm_num, Nat.mod_mul,
        Nat.div_div_eq_div_mul]
  have h3 : n / 65536 % 65536 = n / 65536 % 256 + 256 * (n / 16777216 % 256) := by
    rw [show (65536 : Nat) = 256 * 256 by norm_num, Nat.mod_mul,
        Nat.div_div_eq_div_mul]
  simp only [fromLE32, le32, List.getD_cons_zero, List.getD_cons_succ]
  rw [h1, h2, h3]; ring

theorem length_le32 (n : Nat) : (le32 n).length = 4 := by
  simp [le32]

theorem getFree_setFree (f : List Nat) (id : Nat) :
    getFree (setFree f id) = id % 2 ^ 32 := by
  have h := readAt_writeAt_self f 0 (le32 id)
  rw [length_le32] at h
  simp only [setFree, getFree, h, fromLE32_le32]

theorem length_fix64 (v : List Nat) : (fix64 v).length = 64 := by
  simp [fix64]; omega

theorem length_encodeNode (id u : Nat) (w : List Nat) :
    (encodeNode id u w).length = 8 + w.length := by
  simp [encodeNode, le32]; omega

theorem take4_encodeNode (id u : Nat) (w : List Nat) :
    (encodeNode id u w).take 4 = le32 id := rfl

theorem getD4_encodeNode (id u : Nat) (w : List Nat) :
    (encodeNode id u w).getD 4 0 = u := rfl

theorem drop8_encodeNode (id u : Nat) (w : List Nat) :
    (encodeNode id u w).drop 8 = w := rfl

theorem decodeNode_encodeNode (id u : Nat) (w : List Nat) (hw : w.length = 64) :
    decodeNode (encodeNode id u w) = ⟨id % 2 ^ 32, u, w⟩ := by
  rw [decodeNode, take4_encodeNode, getD4_encodeNode, drop8_encodeNode,
      fromLE32_le32, List.take_of_length_le (by omega)]

theorem readNode_writeAt (f : List Nat) (id : Nat) (d : List Nat)
    (hd : d.length = nodeSize) :
    readNode (writeAt f (id * nodeSize) d) id = some (decodeNode d) := by
  have h := readAt_writeAt_self f (id * nodeSize) d
  rw [hd] at h
  rw [readNode, h]
  rfl

theorem take_fix64 (v : List Nat) (h : v.length ≤ 64) :
    (fix64 v).take v.length = v := by
  rw [fix64, List.take_of_length_le h, List.take_left]

theorem fix64_take (v : List Nat) : fix64 v = fix64 (v.take 64) := by
  have h : 64 - min 64 v.length = 64 - v.length := by omega
  rw [fix64, fix64, List.take_take, Nat.min_self, List.length_take, h]

theorem take4_fix64_le32 (n : Nat) : (fix64 (le32 n)).take 4 = le32 n := by
  have h4 : (le32 n).length = 4 := length_le32 n
  have := take_fix64 (le32 n) (by omega)
  rw [h4] at this
  exact this

theorem writeNode_append (s : Store) (v : List Nat)
    (hfree : getFree s.freeFile = sentinel) :
    writeNode s v = some ⟨writeAt s.nodeFile s.nodeFile.length
      (encodeNode (s.nodeFile.length / nodeSize % 2 ^ 32) 1 (fix64 v)),
      s.freeFile⟩ := by
  simp [writeNode, hfree]

theorem writeNode_reuse (s : Store) (v : List Nat) (h : Nat) (buf : List Nat)
    (hh : getFree s.freeFile = h) (hs : h ≠ sentinel)
    (hread : readAt s.nodeFile (h * nodeSize) nodeSize = some buf) :
    writeNode s v = some ⟨writeAt s.nodeFile (h * nodeSize)
      (encodeNode h 1 (fix64 v)),
      setFree s.freeFile (fromLE32 ((buf.drop 8).take 4))⟩ := by
  simp [writeNode, hh, hs, hread]

theorem deleteNode_eq (s : Store) (id : Nat) :
    deleteNode s id = ⟨writeAt s.nodeFile (id * nodeSize)
      (encodeNode id 0 (fix64 (le32 (getFree s.freeFile)))),
      setFree s.freeFile id⟩ := rfl

theorem getFree_deleteNode (s : Store) (id : Nat) :
    getFree (deleteNode s id).freeFile = id % 2 ^ 32 :=
  getFree_setFree s.freeFile id

theorem allocTarget_eq_head (s : Store) (h : Nat) (hh : getFree s.freeFile = h)
    (hs : h ≠ sentinel) : allocTarget s = h := by
  simp [allocTarget, hh, hs]

theorem fromLE32_lt (bs : List Nat) (hb : ∀ b ∈ bs, b < 256) :
    fromLE32 bs < 2 ^ 32 := by
  have hj : ∀ j, bs.getD j 0 < 256 := by
    intro j
    by_cases hc : j < bs.length
    · rw [List.getD_eq_getElem bs 0 hc]
      exact hb _ (List.getElem_mem hc)
    · rw [List.getD_eq_default bs 0 (by omega)]
      decide
  have h0 := hj 0
  have h1 := hj 1
  have h2 := hj 2
  have h3 := hj 3
  have hp : (2 : Nat) ^ 32 = 4294967296 := by norm_num
  rw [fromLE32, hp]
  omega

theorem readNode_bound (f : List Nat) (i : Nat) (n : Node)
    (hr : readNode f i = some n) : i * nodeSize + nodeSize ≤ f.length := by
  by_contra hcon
  rw [readNode, readAt, if_neg hcon] at hr
  simp at hr

theorem readNode_eq_some (f : List Nat) (i : Nat) (hi : i < f.length / nodeSize) :
    readNode f i = some (decodeNode ((f.drop (i * nodeSize)).take nodeSize)) := by
  have hb : i * nodeSize + nodeSize ≤ f.length := by
    have h2 : (i + 1) * nodeSize ≤ f.length :=
      (Nat.le_div_iff_mul_le (by decide : 0 < nodeSize)).mp (Nat.succ_le_of_lt hi)
    simp only [nodeSize] at h2 ⊢
    omega
  rw [readNode, readAt, if_pos hb]
  rfl

theorem readNode_eq_none (f : List Nat) (i : Nat) (hi : f.length / nodeSize ≤ i) :
    readNode f i = none := by
  have hb : ¬ i * nodeSize + nodeSize ≤ f.length := by
    simp only [nodeSize] at hi ⊢
    omega
  rw [readNode, readAt, if_neg hb]
  rfl

theorem filterMap_eq_map_of_all (l : List Nat) (g : Nat → Option Node)
    (h : Nat → Node) (hg : ∀ a ∈ l, g a = some (h a)) :
    l.filterMap g = l.map h := by
  induction l with
  | nil => rfl
  | cons x xs ih =>
    rw [List.map_cons, List.filterMap_cons, hg x (List.mem_cons_self x xs),
        ih (fun a ha => hg a (List.mem_cons_of_mem x ha))]

theorem readStore_eq_map (f : List Nat) :
    readStore f = (List.range (f.length / nodeSize)).map
      (fun i => decodeNode ((f.drop (i * nodeSize)).take nodeSize)) := by
  rw [readStore]
  apply filterMap_eq_map_of_all
  intro a ha
  exact readNode_eq_some f a (List.mem_range.mp ha)

/-- C2: a slot written by insert (in_use = 1) or delete (in_use = 0) with id
`id` and fixed payload field `fix64 v` reads back (as readNode does) with the
same id and in_use and the same 64 payload bytes; the payload bytes
round-trip exactly for value encodings of at most 64 bytes, and longer
encodings are truncated at byte 64, at the same point every time. -/
theorem c2_roundtrip (f : List Nat) (id u : Nat) (v : List Nat)
    (hid : id < 2 ^ 32) :
    readNode (writeAt f (id * nodeSize) (encodeNode id u (fix64 v))) id =
      some ⟨id, u, fix64 v⟩ ∧
    (v.length ≤ 64 → (fix64 v).take v.length = v) ∧
    fix64 v = fix64 (v.take 64) := by
  refine ⟨?_, fun h => take_fix64 v h, fix64_take v⟩
  have hlen : (encodeNode id u (fix64 v)).length = nodeSize := by
    simp [length_encodeNode, length_fix64, nodeSize]
  rw [readNode_writeAt f id _ hlen, decodeNode_encodeNode id u _ (length_fix64 v),
      Nat.mod_eq_of_lt hid]

set_option maxRecDepth 10000 in
/-- Witness for C2 at a concrete slot. -/
theorem c2_roundtrip_witness :
    (5 : Nat) < 2 ^ 32 ∧
    (readNode (writeAt [] (5 * nodeSize) (encodeNode 5 1 (fix64 [42]))) 5 =
       some ⟨5, 1, fix64 [42]⟩ ∧
     (([42] : List Nat).length ≤ 64 →
       (fix64 [42]).take ([42] : List Nat).length = [42]) ∧
     fix64 [42] = fix64 (([42] : List Nat).take 64)) :=
  ⟨by decide, c2_roundtrip [] 5 1 [42] (by decide)⟩

set_option maxRecDepth 10000 in
/-- C3 is false as stated: with two padding bytes the slot would occupy 71
bytes, not nodeSize = 72, and the byte at offset 7 of an actually encoded
slot is still zero padding — the payload begins at offset 8, not directly
after two padding bytes. -/
theorem c3_counterexample :
    (encodeNodeSpec 5 1 (fix64 [9])).length ≠ nodeSize ∧
    encodeNode 5 1 (fix64 [9]) ≠ encodeNodeSpec 5 1 (fix64 [9]) ∧
    (encodeNode 5 1 (fix64 [9])).getD 7 0 = 0 ∧
    (encodeNode 5 1 (fix64 [9])).getD 8 0 = 9 := by decide

/-- C3 (amended): the on-disk slot layout is id (4 bytes little-endian),
in_use (1 byte), three zero padding bytes, payload (64 bytes) beginning at
offset 8, in that fixed order, and the slot occupies exactly nodeSize = 72
bytes. -/
theorem c3_layout (id u : Nat) (w : List Nat) (hw : w.length = 64) :
    (encodeNode id u w).length = nodeSize ∧
    (encodeNode id u w).take 4 = le32 id ∧
    (encodeNode id u w).getD 4 0 = u ∧
    ((encodeNode id u w).drop 5).take 3 = [0, 0, 0] ∧
    (encodeNode id u w).drop 8 = w := by
  refine ⟨?_, take4_encodeNode id u w, getD4_encodeNode id u w, ?_,
    drop8_encodeNode id u w⟩
  · simp [length_encodeNode, hw, nodeSize]
  · rfl

set_option maxRecDepth 10000 in
/-- Witness for the amended C3 at a concrete slot. -/
theorem c3_layout_witness :
    (fix64 [9]).length = 64 ∧
    ((encodeNode 5 1 (fix64 [9])).length = nodeSize ∧
     (encodeNode 5 1 (fix64 [9])).take 4 = le32 5 ∧
     (encodeNode 5 1 (fix64 [9])).getD 4 0 = 1 ∧
     ((encodeNode 5 1 (fix64 [9])).drop 5).take 3 = [0, 0, 0] ∧
     (encodeNode 5 1 (fix64 [9])).drop 8 = fix64 [9]) :=
  ⟨by decide, c3_layout 5 1 (fix64 [9]) (by decide)⟩

set_option maxRecDepth 10000 in
/-- C4 is false as stated: on a store whose node file's size (73 bytes) is
not a multiple of nodeSize and whose free list is empty, insert succeeds
instead of failing with a corrupt-store error. -/
theorem c4_counterexample :
    s73.nodeFile.length % nodeSize ≠ 0 ∧
    getFree s73.freeFile = sentinel ∧
    (writeNode s73 []).isSome = true := by decide

/-- C4 (amended): with the free list empty, insert assigns the new ID as
file_size / nodeSize (truncating division, reduced mod 2^32) and writes the
occupied slot at offset file_size unconditionally — there is no corrupt-store
check; when the size is a multiple of nodeSize the division is exact, so that
offset equals ID * nodeSize. -/
theorem c4_append_no_corrupt_check (s : Store) (v : List Nat)
    (hfree : getFree s.freeFile = sentinel) :
    writeNode s v = some ⟨writeAt s.nodeFile s.nodeFile.length
      (encodeNode (s.nodeFile.length / nodeSize % 2 ^ 32) 1 (fix64 v)),
      s.freeFile⟩ ∧
    (s.nodeFile.length % nodeSize = 0 →
      s.nodeFile.length / nodeSize * nodeSize = s.nodeFile.length) :=
  ⟨writeNode_append s v hfree,
   fun h => Nat.div_mul_cancel (Nat.dvd_of_mod_eq_zero h)⟩

set_option maxRecDepth 10000 in
/-- Witness for the amended C4 at a concrete aligned store. -/
theorem c4_append_no_corrupt_check_witness :
    getFree s144.freeFile = sentinel ∧
    (writeNode s144 [] = some ⟨writeAt s144.nodeFile s144.nodeFile.length
      (encodeNode (s144.nodeFile.length / nodeSize % 2 ^ 32) 1 (fix64 [])),
      s144.freeFile⟩ ∧
    (s144.nodeFile.length % nodeSize = 0 →
      s144.nodeFile.length / nodeSize * nodeSize = s144.nodeFile.length)) :=
  ⟨by decide, c4_append_no_corrupt_check s144 [] (by decide)⟩

/-- C7: getFree returns the sentinel, not an error, whenever the 4-byte read
fails (any head file shorter than 4 bytes, the empty/missing file included);
consequently on a store that has never seen a deletion the head is the
sentinel and insert takes the append path — it succeeds and leaves the free
file untouched. -/
theorem c7_getFree_total (f : List Nat) (s : Store) (v : List Nat)
    (hf : f.length < 4) (hs : getFree s.freeFile = sentinel) :
    getFree f = sentinel ∧
    writeNode s v = some ⟨writeAt s.nodeFile s.nodeFile.length
      (encodeNode (s.nodeFile.length / nodeSize % 2 ^ 32) 1 (fix64 v)),
      s.freeFile⟩ := by
  refine ⟨?_, writeNode_append s v hs⟩
  rw [getFree, readAt, if_neg (by omega)]

set_option maxRecDepth 10000 in
/-- Witness for C7 on a freshly created (empty) store. -/
theorem c7_getFree_total_witness :
    ([7] : List Nat).length < 4 ∧
    getFree (Store.mk [] []).freeFile = sentinel ∧
    (getFree [7] = sentinel ∧
     writeNode ⟨[], []⟩ [] = some ⟨writeAt (Store.mk [] []).nodeFile
       (Store.mk [] []).nodeFile.length
       (encodeNode ((Store.mk [] []).nodeFile.length / nodeSize % 2 ^ 32) 1
         (fix64 [])),
       (Store.mk [] []).freeFile⟩) :=
  ⟨by decide, by decide, c7_getFree_total [7] ⟨[], []⟩ [] (by decide) (by decide)⟩

/-- C8: scan (readStore) yields the slots from offset 0 up to end-of-file in
ascending slot order — exactly file_size / nodeSize records, the i-th being
slot i — the read at the first out-of-range index fails, which is the loop's
stopping condition rather than an error (readStore is total, and the Go
function returns a nil error on every path), and an empty store yields the
empty sequence. -/
theorem c8_scan_in_order (f : List Nat) :
    (readStore f).length = f.length / nodeSize ∧
    (∀ i, i < f.length / nodeSize → (readStore f)[i]? = readNode f i) ∧
    readNode f (f.length / nodeSize) = none ∧
    readStore ([] : List Nat) = [] := by
  refine ⟨?_, ?_, readNode_eq_none f _ (Nat.le_refl _), rfl⟩
  · rw [readStore_eq_map]; simp
  · intro i hi
    rw [readStore_eq_map, List.getElem?_map, List.getElem?_range hi,
        readNode_eq_some f i hi]
    rfl

set_option maxRecDepth 10000 in
/-- Witness for C8 at a concrete store. -/
theorem c8_scan_in_order_witness :
    1 < cs8.nodeFile.length / nodeSize ∧
    (readStore cs8.nodeFile)[1]? = readNode cs8.nodeFile 1 :=
  ⟨by decide, (c8_scan_in_order cs8.nodeFile).2.1 1 (by decide)⟩

/-- C9: openStore and createStore derive the same pair of file names
(name + ".db", name + "_free.db"), but comClose opens the bare store name and
name + "_free" instead — close does not address the same pair of files, so
the claim's "all address the same pair" fails on the code (close can never
find the files the other operations created). -/
theorem c9_close_wrong_filenames :
    (∀ name : String, openNodeFileName name = createNodeFileName name ∧
      openFreeFileName name = createFreeFileName name) ∧
    closeNodeFileName gName ≠ openNodeFileName gName ∧
    closeFreeFileName gName ≠ openFreeFileName gName :=
  ⟨fun _ => ⟨rfl, rfl⟩, by decide, by decide⟩

/-- C5: when the free-list head h is not the sentinel, insert pops it: it
reads the slot at h from the record store, extracts the next-free link from
bytes [8:12] of its on-disk form (the first 4 bytes of the payload region),
writes that link as the new head (the head then reads back as exactly that
link), and overwrites the popped slot with the new occupied record at ID h. -/
theorem c5_pop_head (s : Store) (v : List Nat) (h : Nat) (buf : List Nat)
    (hh : getFree s.freeFile = h) (hs : h ≠ sentinel) (hlt : h < 2 ^ 32)
    (hread : readAt s.nodeFile (h * nodeSize) nodeSize = some buf)
    (hbytes : ∀ b ∈ buf, b < 256) :
    writeNode s v = some ⟨writeAt s.nodeFile (h * nodeSize)
      (encodeNode h 1 (fix64 v)),
      setFree s.freeFile (fromLE32 ((buf.drop 8).take 4))⟩ ∧
    getFree (setFree s.freeFile (fromLE32 ((buf.drop 8).take 4))) =
      fromLE32 ((buf.drop 8).take 4) ∧
    readNode (writeAt s.nodeFile (h * nodeSize) (encodeNode h 1 (fix64 v))) h =
      some ⟨h, 1, fix64 v⟩ := by
  refine ⟨writeNode_reuse s v h buf hh hs hread, ?_, ?_⟩
  · rw [getFree_setFree]
    exact Nat.mod_eq_of_lt (fromLE32_lt _ (fun b hb =>
      hbytes b (List.mem_of_mem_drop (List.mem_of_mem_take hb))))
  · have hlen : (encodeNode h 1 (fix64 v)).length = nodeSize := by
      simp [length_encodeNode, length_fix64, nodeSize]
    rw [readNode_writeAt s.nodeFile h _ hlen,
        decodeNode_encodeNode h 1 _ (length_fix64 v), Nat.mod_eq_of_lt hlt]

set_option maxRecDepth 10000 in
/-- Witness for C5 at a concrete one-slot store with head 0. -/
theorem c5_pop_head_witness :
    getFree csFree.freeFile = 0 ∧ (0 : Nat) ≠ sentinel ∧ (0 : Nat) < 2 ^ 32 ∧
    readAt csFree.nodeFile (0 * nodeSize) nodeSize =
      some (encodeNode 0 0 (fix64 (le32 sentinel))) ∧
    (∀ b ∈ encodeNode 0 0 (fix64 (le32 sentinel)), b < 256) ∧
    (writeNode csFree [3] = some ⟨writeAt csFree.nodeFile (0 * nodeSize)
      (encodeNode 0 1 (fix64 [3])),
      setFree csFree.freeFile
        (fromLE32 (((encodeNode 0 0 (fix64 (le32 sentinel))).drop 8).take 4))⟩ ∧
     getFree (setFree csFree.freeFile
        (fromLE32 (((encodeNode 0 0 (fix64 (le32 sentinel))).drop 8).take 4))) =
       fromLE32 (((encodeNode 0 0 (fix64 (le32 sentinel))).drop 8).take 4) ∧
     readNode (writeAt csFree.nodeFile (0 * nodeSize)
        (encodeNode 0 1 (fix64 [3]))) 0 = some ⟨0, 1, fix64 [3]⟩) :=
  ⟨by decide, by decide, by decide, by decide, by decide,
   c5_pop_head csFree [3] 0 (encodeNode 0 0 (fix64 (le32 sentinel)))
     (by decide) (by decide) (by decide) (by decide) (by decide)⟩

/-- C6: after deleting ID k from a store in which slot k was occupied (and in
which, as normal operations guarantee, every stored slot records its own
index as its id), the in_use-filtered scan excludes k, while a direct read of
slot k still succeeds and reports in_use = 0. -/
theorem c6_delete_then_read (s : Store) (k : Nat)
    (hocc : (readNode s.nodeFile k).map Node.inUse = some 1)
    (hwf : ∀ i, i < s.nodeFile.length / nodeSize →
      (readNode s.nodeFile i).map Node.id = some i) :
    (readNode (deleteNode s k).nodeFile k).map Node.inUse = some 0 ∧
    ∀ n ∈ readAllInUse (deleteNode s k).nodeFile, n.id ≠ k := by
  have hD : (encodeNode k 0 (fix64 (le32 (getFree s.freeFile)))).length =
      nodeSize := by
    simp [length_encodeNode, length_fix64, nodeSize]
  obtain ⟨nk, hnk⟩ : ∃ nk, readNode s.nodeFile k = some nk := by
    cases hr : readNode s.nodeFile k with
    | none => rw [hr] at hocc; simp at hocc
    | some nk => exact ⟨nk, rfl⟩
  have hkL : k * nodeSize + nodeSize ≤ s.nodeFile.length :=
    readNode_bound _ _ _ hnk
  have hflen : (deleteNode s k).nodeFile.length = s.nodeFile.length := by
    rw [deleteNode_eq]
    show (writeAt s.nodeFile (k * nodeSize) _).length = _
    rw [length_writeAt, hD]
    omega
  constructor
  · rw [deleteNode_eq]
    show (readNode (writeAt s.nodeFile (k * nodeSize)
      (encodeNode k 0 (fix64 (le32 (getFree s.freeFile))))) k).map Node.inUse =
      some 0
    rw [readNode_writeAt _ _ _ hD, decodeNode_encodeNode _ _ _ (length_fix64 _)]
    rfl
  · intro n hn
    rw [readAllInUse, List.mem_filter] at hn
    obtain ⟨hmem, hinuse⟩ := hn
    have hinuse1 : n.inUse = 1 := by simpa using hinuse
    rw [readStore, List.mem_filterMap] at hmem
    obtain ⟨i, hirange, hread⟩ := hmem
    rw [List.mem_range, hflen] at hirange
    by_cases hik : i = k
    · subst hik
      rw [deleteNode_eq] at hread
      rw [show (Store.mk (writeAt s.nodeFile (i * nodeSize)
            (encodeNode i 0 (fix64 (le32 (getFree s.freeFile)))))
            (setFree s.freeFile i)).nodeFile =
          writeAt s.nodeFile (i * nodeSize)
            (encodeNode i 0 (fix64 (le32 (getFree s.freeFile)))) from rfl]
        at hread
      rw [readNode_writeAt _ _ _ hD,
          decodeNode_encodeNode _ _ _ (length_fix64 _)] at hread
      have h0 : n.inUse = 0 := by
        cases hread
        rfl
      rw [h0] at hinuse1
      exact absurd hinuse1 (by decide)
    · have hiL : i * nodeSize + nodeSize ≤ s.nodeFile.length := by
        have h2 : (i + 1) * nodeSize ≤ s.nodeFile.length :=
          (Nat.le_div_iff_mul_le (by decide : 0 < nodeSize)).mp
            (Nat.succ_le_of_lt hirange)
        simp only [nodeSize] at h2 ⊢
        omega
      have heq : readNode (deleteNode s k).nodeFile i = readNode s.nodeFile i := by
        rw [deleteNode_eq]
        show readNode (writeAt s.nodeFile (k * nodeSize)
          (encodeNode k 0 (fix64 (le32 (getFree s.freeFile))))) i = _
        rw [readNode, readNode]
        congr 1
        by_cases hik2 : i < k
        · apply readAt_writeAt_left
          · simp only [nodeSize]
            omega
          · exact hiL
        · apply readAt_writeAt_right
          · rw [hD]
            simp only [nodeSize]
            omega
          · rw [hD]
            exact hkL
      rw [heq] at hread
      have hid := hwf i hirange
      rw [hread] at hid
      simp only [Option.map_some', Option.some.injEq] at hid
      rw [hid]
      exact hik

set_option maxRecDepth 10000 in
/-- Witness for C6 at a concrete eight-slot store, deleting ID 2. -/
theorem c6_delete_then_read_witness :
    (readNode cs8.nodeFile 2).map Node.inUse = some 1 ∧
    (∀ i, i < cs8.nodeFile.length / nodeSize →
      (readNode cs8.nodeFile i).map Node.id = some i) ∧
    ((readNode (deleteNode cs8 2).nodeFile 2).map Node.inUse = some 0 ∧
     ∀ n ∈ readAllInUse (deleteNode cs8 2).nodeFile, n.id ≠ 2) :=
  ⟨by decide, by decide, c6_delete_then_read cs8 2 (by decide) (by decide)⟩

/-- C1: free-slot reuse is LIFO.  From a store where slots 3 and 7 are
occupied and the free list is empty, deleting ID 3, then ID 7, then
inserting twice assigns the first inserted record ID 7 and the second ID 3:
the allocation targets are 7 then 3, both inserts succeed, and afterwards
slot 7 holds the first value, slot 3 the second, with the free list empty
again. -/
theorem c1_lifo_reuse (s : Store) (v1 v2 : List Nat)
    (h3 : (readNode s.nodeFile 3).map Node.inUse = some 1)
    (h7 : (readNode s.nodeFile 7).map Node.inUse = some 1)
    (hfree : getFree s.freeFile = sentinel) :
    ∃ s3 s4,
      allocTarget (deleteNode (deleteNode s 3) 7) = 7 ∧
      writeNode (deleteNode (deleteNode s 3) 7) v1 = some s3 ∧
      allocTarget s3 = 3 ∧
      writeNode s3 v2 = some s4 ∧
      readNode s4.nodeFile 7 = some ⟨7, 1, fix64 v1⟩ ∧
      readNode s4.nodeFile 3 = some ⟨3, 1, fix64 v2⟩ ∧
      getFree s4.freeFile = sentinel := by
  obtain ⟨n7, hn7⟩ : ∃ n, readNode s.nodeFile 7 = some n := by
    cases hr : readNode s.nodeFile 7 with
    | none => rw [hr] at h7; simp at h7
    | some x => exact ⟨x, rfl⟩
  have hL : 7 * nodeSize + nodeSize ≤ s.nodeFile.length :=
    readNode_bound _ _ _ hn7
  have hlen72 : ∀ (a b : Nat) (w : List Nat),
      (encodeNode a b (fix64 w)).length = nodeSize := by
    intro a b w
    simp [length_encodeNode, length_fix64, nodeSize]
  -- state after deleting ID 3
  have e1 : deleteNode s 3 = Store.mk
      (writeAt s.nodeFile (3 * nodeSize) (encodeNode 3 0 (fix64 (le32 sentinel))))
      (setFree s.freeFile 3) := by
    rw [deleteNode_eq, hfree]
  have hg1 : getFree (setFree s.freeFile 3) = 3 := by
    rw [getFree_setFree]; decide
  -- state after deleting ID 7 as well
  have e2 : deleteNode (deleteNode s 3) 7 = Store.mk
      (writeAt (writeAt s.nodeFile (3 * nodeSize)
         (encodeNode 3 0 (fix64 (le32 sentinel)))) (7 * nodeSize)
         (encodeNode 7 0 (fix64 (le32 3))))
      (setFree (setFree s.freeFile 3) 7) := by
    rw [e1, deleteNode_eq]
    have hg1' : getFree (Store.mk
        (writeAt s.nodeFile (3 * nodeSize)
          (encodeNode 3 0 (fix64 (le32 sentinel))))
        (setFree s.freeFile 3)).freeFile = 3 := hg1
    rw [hg1']
  have hg2 : getFree (setFree (setFree s.freeFile 3) 7) = 7 := by
    rw [getFree_setFree]; decide
  have hg2' : getFree (deleteNode (deleteNode s 3) 7).freeFile = 7 := by
    rw [e2]; exact hg2
  -- lengths of the intermediate node files
  have hA1len : (writeAt s.nodeFile (3 * nodeSize)
      (encodeNode 3 0 (fix64 (le32 sentinel)))).length = s.nodeFile.length := by
    rw [length_writeAt, hlen72]
    simp only [nodeSize] at hL ⊢
    omega
  have hA2len : (writeAt (writeAt s.nodeFile (3 * nodeSize)
      (encodeNode 3 0 (fix64 (le32 sentinel)))) (7 * nodeSize)
      (encodeNode 7 0 (fix64 (le32 3)))).length = s.nodeFile.length := by
    rw [length_writeAt, hlen72, hA1len]
    simp only [nodeSize] at hL ⊢
    omega
  -- the slot read by the first reusing insert
  have hr7 : readAt (writeAt (writeAt s.nodeFile (3 * nodeSize)
      (encodeNode 3 0 (fix64 (le32 sentinel)))) (7 * nodeSize)
      (encodeNode 7 0 (fix64 (le32 3)))) (7 * nodeSize) nodeSize =
      some (encodeNode 7 0 (fix64 (le32 3))) := by
    have h := readAt_writeAt_self (writeAt s.nodeFile (3 * nodeSize)
      (encodeNode 3 0 (fix64 (le32 sentinel)))) (7 * nodeSize)
      (encodeNode 7 0 (fix64 (le32 3)))
    rw [hlen72] at h
    exact h
  -- first insert: pops 7, new head is slot 7's stored link, which is 3
  have hlink1 : fromLE32 (((encodeNode 7 0 (fix64 (le32 3))).drop 8).take 4) =
      3 := by decide
  have hw1 : writeNode (Store.mk
      (writeAt (writeAt s.nodeFile (3 * nodeSize)
         (encodeNode 3 0 (fix64 (le32 sentinel)))) (7 * nodeSize)
         (encodeNode 7 0 (fix64 (le32 3))))
      (setFree (setFree s.freeFile 3) 7)) v1 = some (Store.mk
      (writeAt (writeAt (writeAt s.nodeFile (3 * nodeSize)
         (encodeNode 3 0 (fix64 (le32 sentinel)))) (7 * nodeSize)
         (encodeNode 7 0 (fix64 (le32 3)))) (7 * nodeSize)
         (encodeNode 7 1 (fix64 v1)))
      (setFree (setFree (setFree s.freeFile 3) 7)
        (fromLE32 (((encodeNode 7 0 (fix64 (le32 3))).drop 8).take 4)))) :=
    writeNode_reuse _ v1 7 (encodeNode 7 0 (fix64 (le32 3))) hg2 (by decide) hr7
  rw [hlink1] at hw1
  have hg3 : getFree (setFree (setFree (setFree s.freeFile 3) 7) 3) = 3 := by
    rw [getFree_setFree]; decide
  -- the slot read by the second reusing insert: slot 3 still holds the
  -- free marker written by the first delete
  have hr3 : readAt (writeAt (writeAt (writeAt s.nodeFile (3 * nodeSize)
      (encodeNode 3 0 (fix64 (le32 sentinel)))) (7 * nodeSize)
      (encodeNode 7 0 (fix64 (le32 3)))) (7 * nodeSize)
      (encodeNode 7 1 (fix64 v1))) (3 * nodeSize) nodeSize =
      some (encodeNode 3 0 (fix64 (le32 sentinel))) := by
    have hstep1 : readAt (writeAt (writeAt (writeAt s.nodeFile (3 * nodeSize)
        (encodeNode 3 0 (fix64 (le32 sentinel)))) (7 * nodeSize)
        (encodeNode 7 0 (fix64 (le32 3)))) (7 * nodeSize)
        (encodeNode 7 1 (fix64 v1))) (3 * nodeSize) nodeSize =
        readAt (writeAt (writeAt s.nodeFile (3 * nodeSize)
        (encodeNode 3 0 (fix64 (le32 sentinel)))) (7 * nodeSize)
        (encodeNode 7 0 (fix64 (le32 3)))) (3 * nodeSize) nodeSize := by
      apply readAt_writeAt_left
      · decide
      · rw [hA2len]
        simp only [nodeSize] at hL ⊢
        omega
    have hstep2 : readAt (writeAt (writeAt s.nodeFile (3 * nodeSize)
        (encodeNode 3 0 (fix64 (le32 sentinel)))) (7 * nodeSize)
        (encodeNode 7 0 (fix64 (le32 3)))) (3 * nodeSize) nodeSize =
        readAt (writeAt s.nodeFile (3 * nodeSize)
        (encodeNode 3 0 (fix64 (le32 sentinel)))) (3 * nodeSize) nodeSize := by
      apply readAt_writeAt_left
      · decide
      · rw [hA1len]
        simp only [nodeSize] at hL ⊢
        omega
    rw [hstep1, hstep2]
    have h := readAt_writeAt_self s.nodeFile (3 * nodeSize)
      (encodeNode 3 0 (fix64 (le32 sentinel)))
    rw [hlen72] at h
    exact h
  -- second insert: pops 3, new head is slot 3's stored link, the sentinel
  have hlink2 : fromLE32 (((encodeNode 3 0 (fix64 (le32 sentinel))).drop 8).take 4) =
      sentinel := by decide
  have hw2 : writeNode (Store.mk
      (writeAt (writeAt (writeAt s.nodeFile (3 * nodeSize)
         (encodeNode 3 0 (fix64 (le32 sentinel)))) (7 * nodeSize)
         (encodeNode 7 0 (fix64 (le32 3)))) (7 * nodeSize)
         (encodeNode 7 1 (fix64 v1)))
      (setFree (setFree (setFree s.freeFile 3) 7) 3)) v2 = some (Store.mk
      (writeAt (writeAt (writeAt (writeAt s.nodeFile (3 * nodeSize)
         (encodeNode 3 0 (fix64 (le32 sentinel)))) (7 * nodeSize)
         (encodeNode 7 0 (fix64 (le32 3)))) (7 * nodeSize)
         (encodeNode 7 1 (fix64 v1))) (3 * nodeSize)
         (encodeNode 3 1 (fix64 v2)))
      (setFree (setFree (setFree (setFree s.freeFile 3) 7) 3)
        (fromLE32 (((encodeNode 3 0 (fix64 (le32 sentinel))).drop 8).take 4)))) :=
    writeNode_reuse _ v2 3 (encodeNode 3 0 (fix64 (le32 sentinel))) hg3
      (by decide) hr3
  rw [hlink2] at hw2
  -- read back slot 7 in the final state
  have hra7 : readAt (writeAt (writeAt (writeAt (writeAt s.nodeFile (3 * nodeSize)
      (encodeNode 3 0 (fix64 (le32 sentinel)))) (7 * nodeSize)
      (encodeNode 7 0 (fix64 (le32 3)))) (7 * nodeSize)
      (encodeNode 7 1 (fix64 v1))) (3 * nodeSize)
      (encodeNode 3 1 (fix64 v2))) (7 * nodeSize) nodeSize =
      some (encodeNode 7 1 (fix64 v1)) := by
    have hstep : readAt (writeAt (writeAt (writeAt (writeAt s.nodeFile (3 * nodeSize)
        (encodeNode 3 0 (fix64 (le32 sentinel)))) (7 * nodeSize)
        (encodeNode 7 0 (fix64 (le32 3)))) (7 * nodeSize)
        (encodeNode 7 1 (fix64 v1))) (3 * nodeSize)
        (encodeNode 3 1 (fix64 v2))) (7 * nodeSize) nodeSize =
        readAt (writeAt (writeAt (writeAt s.nodeFile (3 * nodeSize)
        (encodeNode 3 0 (fix64 (le32 sentinel)))) (7 * nodeSize)
        (encodeNode 7 0 (fix64 (le32 3)))) (7 * nodeSize)
        (encodeNode 7 1 (fix64 v1))) (7 * nodeSize) nodeSize := by
      apply readAt_writeAt_right
      · rw [hlen72]
        decide
      · rw [hlen72, length_writeAt, hlen72, hA2len]
        simp only [nodeSize] at hL ⊢
        omega
    rw [hstep]
    have h := readAt_writeAt_self (writeAt (writeAt s.nodeFile (3 * nodeSize)
      (encodeNode 3 0 (fix64 (le32 sentinel)))) (7 * nodeSize)
      (encodeNode 7 0 (fix64 (le32 3)))) (7 * nodeSize)
      (encodeNode 7 1 (fix64 v1))
    rw [hlen72] at h
    exact h
  refine ⟨Store.mk
      (writeAt (writeAt (writeAt s.nodeFile (3 * nodeSize)
         (encodeNode 3 0 (fix64 (le32 sentinel)))) (7 * nodeSize)
         (encodeNode 7 0 (fix64 (le32 3)))) (7 * nodeSize)
         (encodeNode 7 1 (fix64 v1)))
      (setFree (setFree (setFree s.freeFile 3) 7) 3),
    Store.mk
      (writeAt (writeAt (writeAt (writeAt s.nodeFile (3 * nodeSize)
         (encodeNode 3 0 (fix64 (le32 sentinel)))) (7 * nodeSize)
         (encodeNode 7 0 (fix64 (le32 3)))) (7 * nodeSize)
         (encodeNode 7 1 (fix64 v1))) (3 * nodeSize)
         (encodeNode 3 1 (fix64 v2)))
      (setFree (setFree (setFree (setFree s.freeFile 3) 7) 3) sentinel),
    allocTarget_eq_head _ 7 hg2' (by decide), ?_, ?_, ?_, ?_, ?_, ?_⟩
  · rw [e2]
    exact hw1
  · exact allocTarget_eq_head _ 3 hg3 (by decide)
  · exact hw2
  · show readNode (writeAt (writeAt (writeAt (writeAt s.nodeFile (3 * nodeSize)
      (encodeNode 3 0 (fix64 (le32 sentinel)))) (7 * nodeSize)
      (encodeNode 7 0 (fix64 (le32 3)))) (7 * nodeSize)
      (encodeNode 7 1 (fix64 v1))) (3 * nodeSize)
      (encodeNode 3 1 (fix64 v2))) 7 = some ⟨7, 1, fix64 v1⟩
    rw [readNode, hra7]
    simp only [Option.map_some']
    rw [decodeNode_encodeNode 7 1 _ (length_fix64 v1)]
    norm_num
  · show readNode (writeAt (writeAt (writeAt (writeAt s.nodeFile (3 * nodeSize)
      (encodeNode 3 0 (fix64 (le32 sentinel)))) (7 * nodeSize)
      (encodeNode 7 0 (fix64 (le32 3)))) (7 * nodeSize)
      (encodeNode 7 1 (fix64 v1))) (3 * nodeSize)
      (encodeNode 3 1 (fix64 v2))) 3 = some ⟨3, 1, fix64 v2⟩
    rw [readNode_writeAt _ _ _ (hlen72 3 1 v2),
        decodeNode_encodeNode 3 1 _ (length_fix64 v2)]
    norm_num
  · show getFree (setFree (setFree (setFree (setFree s.freeFile 3) 7) 3)
      sentinel) = sentinel
    rw [getFree_setFree]
    decide

set_option maxRecDepth 10000 in
/-- Witness for C1 at a concrete eight-slot store. -/
theorem c1_lifo_reuse_witness :
    (readNode cs8.nodeFile 3).map Node.inUse = some 1 ∧
    (readNode cs8.nodeFile 7).map Node.inUse = some 1 ∧
    getFree cs8.freeFile = sentinel ∧
    (∃ s3 s4,
      allocTarget (deleteNode (deleteNode cs8 3) 7) = 7 ∧
      writeNode (deleteNode (deleteNode cs8 3) 7) [65] = some s3 ∧
      allocTarget s3 = 3 ∧
      writeNode s3 [66] = some s4 ∧
      readNode s4.nodeFile 7 = some ⟨7, 1, fix64 [65]⟩ ∧
      readNode s4.nodeFile 3 = some ⟨3, 1, fix64 [66]⟩ ∧
      getFree s4.freeFile = sentinel) :=
  ⟨by decide, by decide, by decide,
   c1_lifo_reuse cs8 [65] [66] (by decide) (by decide) (by decide)⟩

set_option maxRecDepth 10000 in
/-- C10 is false in its final clause: after deleting ID 0 twice in a
ten-slot store, the head and slot 0's embedded link are both 0 (the claimed
self-loop holds), and the next two inserts do pop 0 — but the second insert
installs a head taken from the first insert's payload bytes, so the third
insert is an allocating insert (head 5, not the sentinel) whose target is 5,
not 0: not every subsequent allocating insert pops 0. -/
theorem c10_counterexample :
    getFree (deleteNode (deleteNode s720 0) 0).freeFile = 0 ∧
    (readNode (deleteNode (deleteNode s720 0) 0).nodeFile 0).map
      (fun n => fromLE32 (n.value.take 4)) = some 0 ∧
    ((writeNode (deleteNode (deleteNode s720 0) 0) [5, 0, 0, 0]).bind
      (fun s => writeNode s [6, 0, 0, 0])).map
      (fun s => (getFree s.freeFile, allocTarget s)) = some (5, 5) ∧
    (5 : Nat) ≠ 0 ∧ (5 : Nat) ≠ sentinel := by decide

/-- C10 (amended): delete performs no validation — for every id it
unconditionally overwrites the slot at id * nodeSize; deleting the same ID k
twice in succession leaves the free-list head equal to k and the free slot's
embedded next-link equal to k (a self-loop on disk), so the next allocating
insert pops k, and since the head it installs is again k, the insert after
that pops k as well; the loop is then destroyed because slot k's link bytes
now hold payload, so still-later inserts need not pop k. -/
theorem c10_double_delete_self_loop (s : Store) (k : Nat) (v1 : List Nat)
    (hk : k < sentinel) :
    (deleteNode s k).nodeFile = writeAt s.nodeFile (k * nodeSize)
      (encodeNode k 0 (fix64 (le32 (getFree s.freeFile)))) ∧
    getFree (deleteNode (deleteNode s k) k).freeFile = k ∧
    (readNode (deleteNode (deleteNode s k) k).nodeFile k).map
      (fun n => fromLE32 (n.value.take 4)) = some k ∧
    allocTarget (deleteNode (deleteNode s k) k) = k ∧
    ∃ s3, writeNode (deleteNode (deleteNode s k) k) v1 = some s3 ∧
      allocTarget s3 = k := by
  have hsent : sentinel = 4294967295 := by decide
  have hp : (2 : Nat) ^ 32 = 4294967296 := by norm_num
  have hk32 : k < 2 ^ 32 := by omega
  have hkne : k ≠ sentinel := Nat.ne_of_lt hk
  have hmod : k % 2 ^ 32 = k := Nat.mod_eq_of_lt hk32
  have hg1 : getFree (deleteNode s k).freeFile = k :=
    (getFree_deleteNode s k).trans hmod
  have e2 : deleteNode (deleteNode s k) k = Store.mk
      (writeAt (deleteNode s k).nodeFile (k * nodeSize)
        (encodeNode k 0 (fix64 (le32 k))))
      (setFree (deleteNode s k).freeFile k) := by
    rw [deleteNode_eq, hg1]
  have hg2 : getFree (deleteNode (deleteNode s k) k).freeFile = k :=
    (getFree_deleteNode (deleteNode s k) k).trans hmod
  have hDk : (encodeNode k 0 (fix64 (le32 k))).length = nodeSize := by
    simp [length_encodeNode, length_fix64, nodeSize]
  have hr : readAt (deleteNode (deleteNode s k) k).nodeFile (k * nodeSize)
      nodeSize = some (encodeNode k 0 (fix64 (le32 k))) := by
    rw [e2]
    show readAt (writeAt (deleteNode s k).nodeFile (k * nodeSize)
      (encodeNode k 0 (fix64 (le32 k)))) (k * nodeSize) nodeSize = _
    have h := readAt_writeAt_self (deleteNode s k).nodeFile (k * nodeSize)
      (encodeNode k 0 (fix64 (le32 k)))
    rw [hDk] at h
    exact h
  have hlink : fromLE32 (((encodeNode k 0 (fix64 (le32 k))).drop 8).take 4) =
      k := by
    rw [drop8_encodeNode, take4_fix64_le32, fromLE32_le32]
    exact hmod
  refine ⟨?_, hg2, ?_, allocTarget_eq_head _ k hg2 hkne, ?_⟩
  · rw [deleteNode_eq]
  · rw [e2]
    show (readNode (writeAt (deleteNode s k).nodeFile (k * nodeSize)
      (encodeNode k 0 (fix64 (le32 k)))) k).map
      (fun n => fromLE32 (n.value.take 4)) = some k
    rw [readNode_writeAt _ _ _ hDk,
        decodeNode_encodeNode _ _ _ (length_fix64 _)]
    simp only [Option.map_some', Option.some.injEq]
    rw [take4_fix64_le32, fromLE32_le32]
    exact hmod
  · have hw := writeNode_reuse (deleteNode (deleteNode s k) k) v1 k
      (encodeNode k 0 (fix64 (le32 k))) hg2 hkne hr
    rw [hlink] at hw
    refine ⟨_, hw, ?_⟩
    have hg3 : getFree (setFree (deleteNode (deleteNode s k) k).freeFile k) =
        k := (getFree_setFree _ k).trans hmod
    exact allocTarget_eq_head _ k hg3 hkne

set_option maxRecDepth 10000 in
/-- Witness for the amended C10 at a concrete ten-slot store, with k = 0. -/
theorem c10_double_delete_self_loop_witness :
    (0 : Nat) < sentinel ∧
    ((deleteNode s720 0).nodeFile = writeAt s720.nodeFile (0 * nodeSize)
      (encodeNode 0 0 (fix64 (le32 (getFree s720.freeFile)))) ∧
     getFree (deleteNode (deleteNode s720 0) 0).freeFile = 0 ∧
     (readNode (deleteNode (deleteNode s720 0) 0).nodeFile 0).map
       (fun n => fromLE32 (n.value.take 4)) = some 0 ∧
     allocTarget (deleteNode (deleteNode s720 0) 0) = 0 ∧
     ∃ s3, writeNode (deleteNode (deleteNode s720 0) 0) [9] = some s3 ∧
       allocTarget s3 = 0) :=
  ⟨by decide, c10_double_delete_self_loop s720 0 [9] (by decide)⟩

end Peridot
